import Mathlib

/-!
# BubbleScopeCL: command-line parameters and capture driver

A shallow embedding of `src/command_line_params.cpp` (the table `clParams` and
`getParameters`) and of `src/main.cpp` (`setupDefaultParameters` and `main`),
together with the transformation formulas of the unwrapper, whose source file is
not part of the sources.

Conventions.
* A C `int` is an `Int`; no arithmetic on them can overflow here (the only
  arithmetic is on the loop index, which stays below `argc + 1`).
* A C `float` holds a rational number, so a `float` field is a `ℚ` holding the
  exact value of the binary32; a literal such as `0.6f` is written as the
  binary32 nearest to it.
* `argv` is a `List String` and `argc` is its length. Reading `argv[i]` with
  `i ≥ argc` is reported as a fault, never given a value.
-/

namespace BubbleScope

/-! ## The C library conversions -/

/-- The two conversions of `sscanf` that the program uses. `scanInt s` is what
`sscanf(s, "%d", &x)` assigns to `x`, and `scanFloat s` what `sscanf(s, "%f", &x)`
assigns; `none` means that nothing is assigned and `x` keeps its value. -/
structure Scanf where
  scanInt : String → Option Int
  scanFloat : String → Option ℚ

/-- The statement `sscanf(s, "%d", &x)` as a function of the old value of `x`. -/
def sscanf_d (sc : Scanf) (s : String) (x : Int) : Int :=
  match sc.scanInt s with
  | some n => n
  | none => x

/-- The statement `sscanf(s, "%f", &x)` as a function of the old value of `x`. -/
def sscanf_f (sc : Scanf) (s : String) (x : ℚ) : ℚ :=
  match sc.scanFloat s with
  | some q => q
  | none => x

/-- The C predicate `isspace` in the "C" locale. -/
def isspace (c : Char) : Bool :=
  c = ' ' || c = '\t' || c = '\n' || c = '\r' || c.toNat = 11 || c.toNat = 12

/-- Value of the longest prefix of decimal digits, continuing from `acc`. -/
def digitsValue : List Char → Nat → Nat
  | [], acc => acc
  | c :: cs, acc => if c.isDigit then digitsValue cs (acc * 10 + (c.toNat - 48)) else acc

/-- Number of leading decimal digits. -/
def digitsCount : List Char → Nat
  | [] => 0
  | c :: cs => if c.isDigit then digitsCount cs + 1 else 0

/-- An unsigned decimal integer at the head of the input. -/
def scanUnsigned (cs : List Char) : Option Nat :=
  if digitsCount cs = 0 then none else some (digitsValue cs 0)

/-- The `%d` conversion on a decimal numeral: leading white space is skipped, one
sign is accepted, and at least one digit is required. -/
def scanDecimalInt (s : String) : Option Int :=
  match s.toList.dropWhile isspace with
  | '-' :: ds => (scanUnsigned ds).map fun n => -(n : Int)
  | '+' :: ds => (scanUnsigned ds).map fun n => (n : Int)
  | ds => (scanUnsigned ds).map fun n => (n : Int)

/-- An unsigned decimal `digits[.digits]` or `.digits` at the head of the input. -/
def scanUnsignedDecimal (cs : List Char) : Option ℚ :=
  let k := digitsCount cs
  match cs.drop k with
  | '.' :: fs =>
    let m := digitsCount fs
    if k + m = 0 then none
    else some (((digitsValue cs 0 : ℕ) : ℚ) + ((digitsValue fs 0 : ℕ) : ℚ) / (10 : ℚ) ^ m)
  | _ => if k = 0 then none else some ((digitsValue cs 0 : ℕ) : ℚ)

/-- The `%f` conversion on a plain decimal numeral (no exponent part), giving the
exact decimal value. On a numeral whose value is a binary32 this is the value
that C stores. -/
def scanDecimalFloat (s : String) : Option ℚ :=
  match s.toList.dropWhile isspace with
  | '-' :: ds => (scanUnsignedDecimal ds).map fun q => -q
  | '+' :: ds => scanUnsignedDecimal ds
  | ds => scanUnsignedDecimal ds

/-- The conversions on plain decimal numerals, used to run the program on
concrete argument vectors. -/
def decimalScanf : Scanf where
  scanInt := scanDecimalInt
  scanFloat := scanDecimalFloat

/-! ## `command_line_params.cpp` -/

namespace CommandLine

/-- The enumeration of parameter kinds that labels the rows of `clParams` and the
cases of the `switch` in `getParameters`. -/
inductive CLParameterType where
  | HELP
  | CAPTURE_DEVICE
  | ORIGINAL_WIDTH
  | ORIGINAL_HEIGHT
  | UNWRAP_WIDTH
  | RADIUS_MIN
  | RADIUS_MAX
  | U_CENTRE
  | V_CENTRE
  | OFFSET_ANGLE
  | SHOW_ORIGINAL
  | SHOW_UNWRAP
  | OUTPUT_STILLS
  | OUTPUT_VIDEO
  | OUTPUT_MJPG
  deriving DecidableEq, Repr

/-- One row of the table of command-line parameters. -/
structure CLParameter where
  type : CLParameterType
  shortParam : String
  longParam : String
  name : String
  description : String
  deriving DecidableEq, Repr

open CLParameterType in
/-- Array of parameters which may be passed to the application. -/
def clParams : List CLParameter := [
  ⟨HELP,            "-h",    "--help",      "Show help",          "Shows this help text"⟩,
  ⟨CAPTURE_DEVICE,  "-d",    "--device",    "Capture device",     "Specified the V4L2 capture device"⟩,
  ⟨ORIGINAL_WIDTH,  "-iw",   "--inwidth",   "Original width",     ""⟩,
  ⟨ORIGINAL_HEIGHT, "-ih",   "--inheight",  "Original height",    ""⟩,
  ⟨UNWRAP_WIDTH,    "-ow",   "--outwidth",  "Unwrap width",       ""⟩,
  ⟨RADIUS_MIN,      "-rmin", "--minradius", "Radius min",         ""⟩,
  ⟨RADIUS_MAX,      "-rmax", "--maxradius", "Radius max",         ""⟩,
  ⟨U_CENTRE,        "-uc",   "--ucentre",   "U centre",           ""⟩,
  ⟨V_CENTRE,        "-vc",   "--vcentre",   "V centre",           ""⟩,
  ⟨OFFSET_ANGLE,    "-a",    "--offset",    "Offset angle",       ""⟩,
  ⟨SHOW_ORIGINAL,   "-o",    "--original",  "Show original",      ""⟩,
  ⟨SHOW_UNWRAP,     "-u",    "--unwrap",    "Show unwrap",        ""⟩,
  ⟨OUTPUT_STILLS,   "-s",    "--stills",    "Output stills",      ""⟩,
  ⟨OUTPUT_VIDEO,    "-v",    "--video",     "Output video",       ""⟩,
  ⟨OUTPUT_MJPG,     "-m",    "--mjpg",      "Output MJPG stream", ""⟩]

/-- Size of the params array. -/
def clParamCount : Nat := 15

/-- The parameter record that `getParameters` fills. Its declaration is in
`command_line_params.h`, which is not among the sources; the fields are the ones
that `getParameters` assigns. The arrays `mode` and `outputFilename` are indexed
by the constants `MODE_SHOW_ORIGINAL`, `MODE_SHOW_UNWRAP`, `MODE_STILLS`,
`MODE_VIDEO` and `MODE_MJPG`, taken to be distinct, and appear here as one field
for each slot that is assigned. A `char *` that was never assigned is `none`. -/
structure BubbleScopeParameters where
  captureDevice : Int
  originalWidth : Int
  originalHeight : Int
  unwrapWidth : Int
  radiusMin : ℚ
  radiusMax : ℚ
  uCentre : ℚ
  vCentre : ℚ
  offsetAngle : ℚ
  modeShowOriginal : Int
  modeShowUnwrap : Int
  modeStills : Int
  modeVideo : Int
  modeMjpg : Int
  outputFilenameStills : Option String
  outputFilenameVideo : Option String
  outputFilenameMjpg : Option String
  deriving DecidableEq, Repr

/-- How control leaves the body of the `j` loop: it goes on with the next `j`
(with the current `i` and parameters), the function returns, or `argv` was read
at an index that is not below `argc`. -/
inductive Flow where
  | next (i : Nat) (params : BubbleScopeParameters)
  | ret (code : Int) (params : BubbleScopeParameters)
  | outOfBounds (i : Nat)
  deriving DecidableEq, Repr

/-- The `switch(clParams[j].type)` of `getParameters`, entered after `i++`.
`helpCode` is the integer value of the enumerator `HELP`. -/
def switchType (sc : Scanf) (helpCode : Int) (argv : List String) (t : CLParameterType)
    (i : Nat) (params : BubbleScopeParameters) : Flow :=
  match t with
  | .HELP => .ret helpCode params
  | .CAPTURE_DEVICE =>
    match argv[i]? with
    | none => .outOfBounds i
    | some a => .next i { params with captureDevice := sscanf_d sc a params.captureDevice }
  | .ORIGINAL_WIDTH =>
    match argv[i]? with
    | none => .outOfBounds i
    | some a => .next i { params with originalWidth := sscanf_d sc a params.originalWidth }
  | .ORIGINAL_HEIGHT =>
    match argv[i]? with
    | none => .outOfBounds i
    | some a => .next i { params with originalHeight := sscanf_d sc a params.originalHeight }
  | .UNWRAP_WIDTH =>
    match argv[i]? with
    | none => .outOfBounds i
    | some a => .next i { params with unwrapWidth := sscanf_d sc a params.unwrapWidth }
  | .RADIUS_MIN =>
    match argv[i]? with
    | none => .outOfBounds i
    | some a => .next i { params with radiusMin := sscanf_f sc a params.radiusMin }
  | .RADIUS_MAX =>
    match argv[i]? with
    | none => .outOfBounds i
    | some a => .next i { params with radiusMax := sscanf_f sc a params.radiusMax }
  | .U_CENTRE =>
    match argv[i]? with
    | none => .outOfBounds i
    | some a => .next i { params with uCentre := sscanf_f sc a params.uCentre }
  | .V_CENTRE =>
    match argv[i]? with
    | none => .outOfBounds i
    | some a => .next i { params with vCentre := sscanf_f sc a params.vCentre }
  | .OFFSET_ANGLE =>
    match argv[i]? with
    | none => .outOfBounds i
    | some a => .next i { params with offsetAngle := sscanf_f sc a params.offsetAngle }
  | .SHOW_ORIGINAL => .next (i - 1) { params with modeShowOriginal := 1 }
  | .SHOW_UNWRAP => .next (i - 1) { params with modeShowUnwrap := 1 }
  | .OUTPUT_STILLS =>
    match argv[i]? with
    | none => .outOfBounds i
    | some a => .next i { params with modeStills := 1, outputFilenameStills := some a }
  | .OUTPUT_VIDEO =>
    match argv[i]? with
    | none => .outOfBounds i
    | some a => .next i { params with modeVideo := 1, outputFilenameVideo := some a }
  | .OUTPUT_MJPG =>
    match argv[i]? with
    | none => .outOfBounds i
    | some a => .next i { params with modeMjpg := 1, outputFilenameMjpg := some a }

/-- The loop `for(j = ...; j < clParamCount; j++)` of `getParameters`, over the rows
`clParams[j], clParams[j+1], ...` that are still to be compared. Both `strcmp`
calls read `argv[i]`. After a match the loop goes on with the next row and the
index `i` that the `switch` left. -/
def paramLoop (sc : Scanf) (helpCode : Int) (argv : List String) :
    List CLParameter → Nat → BubbleScopeParameters → Flow
  | [], i, params => .next i params
  | c :: rows, i, params =>
    match argv[i]? with
    | none => .outOfBounds i
    | some a =>
      if c.shortParam = a ∨ c.longParam = a then
        match switchType sc helpCode argv c.type (i + 1) params with
        | .next i' params' => paramLoop sc helpCode argv rows i' params'
        | .ret code params' => .ret code params'
        | .outOfBounds k => .outOfBounds k
      else paramLoop sc helpCode argv rows i params

/-- What a call of `getParameters` comes to: it returns `code` and leaves
`params` in the record, or it reads `argv[i]` with `i ≥ argc`, or the bound on
the number of iterations given to `argLoop` was too small. -/
inductive Outcome where
  | returned (code : Int) (params : BubbleScopeParameters)
  | outOfBounds (i : Nat)
  | outOfFuel
  deriving DecidableEq, Repr

/-- The loop `for(i = ...; i < argc; i++)` of `getParameters`, with a bound `fuel`
on the number of iterations. -/
def argLoop (sc : Scanf) (helpCode : Int) (argv : List String) :
    Nat → Nat → BubbleScopeParameters → Outcome
  | fuel, i, params =>
    if i < argv.length then
      match fuel with
      | 0 => .outOfFuel
      | fuel + 1 =>
        match paramLoop sc helpCode argv clParams i params with
        | .next i' params' => argLoop sc helpCode argv fuel (i' + 1) params'
        | .ret code params' => .returned code params'
        | .outOfBounds k => .outOfBounds k
    else .returned 0 params

/-- Populates a set of parameters based on the contents of `argv`. Every
iteration of the outer loop advances `i`, so `argc` iterations are enough
(`argLoop_enough`). -/
def getParameters (sc : Scanf) (helpCode : Int) (params : BubbleScopeParameters)
    (argv : List String) : Outcome :=
  argLoop sc helpCode argv argv.length 0 params

/-! ### Vocabulary for statements about `getParameters` -/

/-- The row compares equal to `s`: `s` is its short or its long form. -/
def CLParameter.matches (c : CLParameter) (s : String) : Bool :=
  c.shortParam == s || c.longParam == s

/-- The string is the short or the long form of some parameter. -/
def isFlag (s : String) : Bool :=
  clParams.any fun c => c.matches s

/-- The row of the table whose short or long form is `s`. -/
def paramOf (s : String) : Option CLParameter :=
  clParams.find? fun c => c.matches s

/-- The string is the short or the long form of the parameter of kind `t`. -/
def names (t : CLParameterType) (s : String) : Bool :=
  clParams.any fun c => c.type == t && c.matches s

/-- The kinds whose case of the `switch` reads the argument after the flag:
device, inwidth, inheight, outwidth, minradius, maxradius, ucentre, vcentre,
offset, stills, video and mjpg. -/
def CLParameterType.takesValue : CLParameterType → Bool
  | .HELP | .SHOW_ORIGINAL | .SHOW_UNWRAP => false
  | _ => true

/-- The string is the short or the long form of a flag that takes a value. -/
def isValueFlag (s : String) : Bool :=
  clParams.any fun c => c.type.takesValue && c.matches s

/-- The value is a well-formed number for the numeric parameter of kind `t`: the
conversion that the `switch` applies to it assigns a number. It is `false` for
the kinds that are not numeric. -/
def scansAs (sc : Scanf) (t : CLParameterType) (v : String) : Bool :=
  match t with
  | .CAPTURE_DEVICE | .ORIGINAL_WIDTH | .ORIGINAL_HEIGHT | .UNWRAP_WIDTH =>
    (sc.scanInt v).isSome
  | .RADIUS_MIN | .RADIUS_MAX | .U_CENTRE | .V_CENTRE | .OFFSET_ANGLE =>
    (sc.scanFloat v).isSome
  | _ => false

/-- A flag/value pair is well formed: the flag is the short or the long form of
one of the nine numeric parameters, and the value is a well-formed number for it
that equals no flag. -/
def wellFormedPair (sc : Scanf) (fv : String × String) : Bool :=
  match paramOf fv.1 with
  | some c => scansAs sc c.type fv.2 && !isFlag fv.2
  | none => false

/-- The argument strings of a list of flag/value pairs, in order. -/
def argvOfPairs : List (String × String) → List String
  | [] => []
  | fv :: rest => fv.1 :: fv.2 :: argvOfPairs rest

/-- The last value given for the parameter of kind `t`, if any pair names it. -/
def lastValue (t : CLParameterType) : List (String × String) → Option String
  | [] => none
  | fv :: rest =>
    match lastValue t rest with
    | some w => some w
    | none => if names t fv.1 then some fv.2 else none

/-- An `int` field after the pairs: the number in the last value given for it, or
its old value when no pair names it. -/
def intAfter (sc : Scanf) (t : CLParameterType) (pairs : List (String × String))
    (old : Int) : Int :=
  match (lastValue t pairs).bind sc.scanInt with
  | some n => n
  | none => old

/-- A `float` field after the pairs: the number in the last value given for it,
or its old value when no pair names it. -/
def floatAfter (sc : Scanf) (t : CLParameterType) (pairs : List (String × String))
    (old : ℚ) : ℚ :=
  match (lastValue t pairs).bind sc.scanFloat with
  | some q => q
  | none => old

/-- The record that the specification of `getParameters` describes for a list of
well-formed numeric pairs: each named field holds the last value given for it
and every other field is unchanged. -/
def expectedParameters (sc : Scanf) (pairs : List (String × String))
    (params : BubbleScopeParameters) : BubbleScopeParameters :=
  { params with
    captureDevice := intAfter sc .CAPTURE_DEVICE pairs params.captureDevice
    originalWidth := intAfter sc .ORIGINAL_WIDTH pairs params.originalWidth
    originalHeight := intAfter sc .ORIGINAL_HEIGHT pairs params.originalHeight
    unwrapWidth := intAfter sc .UNWRAP_WIDTH pairs params.unwrapWidth
    radiusMin := floatAfter sc .RADIUS_MIN pairs params.radiusMin
    radiusMax := floatAfter sc .RADIUS_MAX pairs params.radiusMax
    uCentre := floatAfter sc .U_CENTRE pairs params.uCentre
    vCentre := floatAfter sc .V_CENTRE pairs params.vCentre
    offsetAngle := floatAfter sc .OFFSET_ANGLE pairs params.offsetAngle }

end CommandLine

/-! ## `main.cpp` -/

namespace Driver

inductive BubbleScopeCaptureMode where
  | PREVIEW
  | VIDEO
  | STILLS
  deriving DecidableEq, Repr

/-- Stores user options defining capture properties. -/
structure BubbleScopeParameters where
  captureDevice : Int
  originalWidth : Int
  originalHeight : Int
  unwrapWidth : Int
  radiusMin : ℚ
  radiusMax : ℚ
  uCentre : ℚ
  vCentre : ℚ
  offsetAngle : ℚ
  showOriginal : Int
  showUnwrap : Int
  capMode : BubbleScopeCaptureMode
  outputFilename : String
  deriving DecidableEq, Repr

/-- Sets a reasonable default configuration. The literal `0.6f` is the binary32
nearest to 0.6, which is 5033165 / 8388608; `0.25f`, `0.5f` and `180.0f` are
exact. -/
def setupDefaultParameters (params : BubbleScopeParameters) : BubbleScopeParameters :=
  { params with
    captureDevice := 0
    originalWidth := 640
    originalHeight := 480
    unwrapWidth := 800
    radiusMin := 1 / 4
    radiusMax := 5033165 / 8388608
    uCentre := 1 / 2
    vCentre := 1 / 2
    offsetAngle := 180
    showOriginal := 0
    showUnwrap := 1
    capMode := .PREVIEW
    outputFilename := "BubbleScope_Capture" }

/-- The dimensions of a captured frame (`cv::Mat::cols` and `cv::Mat::rows`). -/
structure Mat where
  cols : Int
  rows : Int
  deriving DecidableEq, Repr

/-- The calls that `main` makes on the unwrapper, with their arguments. -/
inductive UnwrapperCall where
  | unwrapWidth (width : Int)
  | originalCentre (u v : ℚ)
  | imageRadius (min max : ℚ)
  | offsetAngle (angle : ℚ)
  | originalSize (cols rows : Int)
  | generateTransformation
  | unwrap (frame : Mat)
  deriving DecidableEq, Repr

/-- The call is one of the configuration setters. -/
def UnwrapperCall.isSetter : UnwrapperCall → Bool
  | .unwrapWidth _ | .originalCentre _ _ | .imageRadius _ _ | .offsetAngle _
  | .originalSize _ _ => true
  | _ => false

/-- The call is `unwrap`. -/
def UnwrapperCall.isUnwrap : UnwrapperCall → Bool
  | .unwrap _ => true
  | _ => false

/-- The call passes positive dimensions and an increasing radius range. Calls
that pass neither are vacuously fine. -/
def UnwrapperCall.passesValid : UnwrapperCall → Bool
  | .unwrapWidth width => decide (0 < width)
  | .imageRadius min max => decide (min < max)
  | .originalSize cols rows => decide (0 < cols) && decide (0 < rows)
  | _ => true

/-- The calls made before the first `generateTransformation`, when there is one. -/
def beforeGenerate : List UnwrapperCall → Option (List UnwrapperCall)
  | [] => none
  | .generateTransformation :: _ => some []
  | c :: rest => (beforeGenerate rest).map fun cfg => c :: cfg

/-- What is known of a run of `main`: the calls made on the unwrapper so far, and
the exit status once `main` has returned (`none` while it is still in its loop). -/
structure Run where
  calls : List UnwrapperCall
  exit : Option Int
  deriving DecidableEq, Repr

/-- The block of `main` that fills `params`: the defaults, then the ten
positional arguments. `stack` is the indeterminate initial content of the local
variable. The result is `none` when `argv` has no element at one of the indices
1 to 10. -/
def scanArguments (sc : Scanf) (stack : BubbleScopeParameters) (argv : List String) :
    Option BubbleScopeParameters := do
  let params := setupDefaultParameters stack
  let a1 ← argv[1]?
  let params := { params with captureDevice := sscanf_d sc a1 params.captureDevice }
  let a2 ← argv[2]?
  let params := { params with originalWidth := sscanf_d sc a2 params.originalWidth }
  let a3 ← argv[3]?
  let params := { params with originalHeight := sscanf_d sc a3 params.originalHeight }
  let a4 ← argv[4]?
  let params := { params with unwrapWidth := sscanf_d sc a4 params.unwrapWidth }
  let a5 ← argv[5]?
  let params := { params with radiusMin := sscanf_f sc a5 params.radiusMin }
  let a6 ← argv[6]?
  let params := { params with radiusMax := sscanf_f sc a6 params.radiusMax }
  let a7 ← argv[7]?
  let params := { params with uCentre := sscanf_f sc a7 params.uCentre }
  let a8 ← argv[8]?
  let params := { params with vCentre := sscanf_f sc a8 params.vCentre }
  let a9 ← argv[9]?
  let params := { params with showOriginal := sscanf_d sc a9 params.showOriginal }
  let a10 ← argv[10]?
  let params := { params with offsetAngle := sscanf_f sc a10 params.offsetAngle }
  pure params

/-- The loop `while(1)` of `main`. Each element of the list is one iteration that
has run: the frame that was captured and the value that `cv::waitKey(1)`
returned. The loop is left when that value is 27. -/
def captureLoop : List (Mat × Int) → Run
  | [] => ⟨[], none⟩
  | (frame, key) :: rest =>
    if key = 27 then ⟨[.unwrap frame], some 0⟩
    else
      let run := captureLoop rest
      ⟨.unwrap frame :: run.calls, run.exit⟩

/-- The function `main`, as the calls it makes on the unwrapper. `opened` is the
result of `cap.isOpened()`, `first` the frame captured before the loop, and
`iterations` the loop iterations that have run. Output to the terminal and to
windows is left out. -/
def main (sc : Scanf) (stack : BubbleScopeParameters) (argv : List String) (opened : Bool)
    (first : Mat) (iterations : List (Mat × Int)) : Option Run := do
  let params ← scanArguments sc stack argv
  let setup : List UnwrapperCall :=
    [.unwrapWidth params.unwrapWidth,
     .originalCentre params.uCentre params.vCentre,
     .imageRadius params.radiusMin params.radiusMax,
     .offsetAngle params.offsetAngle]
  if !opened then
    pure ⟨setup, some (-1)⟩
  else
    let run := captureLoop iterations
    pure ⟨setup ++ [.originalSize first.cols first.rows, .generateTransformation] ++ run.calls,
      run.exit⟩

end Driver

/-! ## The transformation of the unwrapper -/

namespace Unwrap

/-- Modelled from the spec: `unwrap.h` and the source file of
`BubbleScopeUnwrapper` are absent. This is the calibration record of section 3 of
the specification. -/
structure CalibrationModel where
  originalWidth : Int
  originalHeight : Int
  uCentre : ℚ
  vCentre : ℚ
  radiusMin : ℚ
  radiusMax : ℚ
  offsetAngle : ℚ
  unwrapWidth : Int
  unwrapHeight : Int
  deriving DecidableEq, Repr

/-- Modelled from the spec: the calibration that the driver configures from its
parameters (the setters store their arguments), with the panorama height given
separately, since the driver does not set it. -/
def calibrationOf (params : Driver.BubbleScopeParameters) (unwrapHeight : Int) :
    CalibrationModel where
  originalWidth := params.originalWidth
  originalHeight := params.originalHeight
  uCentre := params.uCentre
  vCentre := params.vCentre
  radiusMin := params.radiusMin
  radiusMax := params.radiusMax
  offsetAngle := params.offsetAngle
  unwrapWidth := params.unwrapWidth
  unwrapHeight := unwrapHeight

variable {K : Type} [Field K]

/-- Modelled from the spec: `toRadians` of section 4.2, for a given value of π. -/
def toRadians (pi deg : K) : K := deg * pi / 180

/-- Modelled from the spec: step 1 of section 4.2,
`theta = (x / unwrapWidth) * 2π + toRadians(offsetAngle)`. -/
def theta (pi : K) (m : CalibrationModel) (x : Int) : K :=
  ((x : K) / (m.unwrapWidth : K)) * (2 * pi) + toRadians pi (m.offsetAngle : K)

/-- Modelled from the spec: step 2 of section 4.2,
`radiusFraction = radiusMin + (radiusMax − radiusMin) * (y / unwrapHeight)`. -/
def radiusFraction (m : CalibrationModel) (y : Int) : K :=
  (m.radiusMin : K) + ((m.radiusMax : K) - (m.radiusMin : K)) * ((y : K) / (m.unwrapHeight : K))

/-- Modelled from the spec: step 3 of section 4.2,
`srcX = uCentre * originalWidth + radiusFraction * (originalWidth / 2) * cos(theta)`. -/
def srcX (pi : K) (cos : K → K) (m : CalibrationModel) (x y : Int) : K :=
  (m.uCentre : K) * (m.originalWidth : K)
    + radiusFraction m y * ((m.originalWidth : K) / 2) * cos (theta pi m x)

/-- Modelled from the spec: step 3 of section 4.2,
`srcY = vCentre * originalHeight + radiusFraction * (originalHeight / 2) * sin(theta)`. -/
def srcY (pi : K) (sin : K → K) (m : CalibrationModel) (x y : Int) : K :=
  (m.vCentre : K) * (m.originalHeight : K)
    + radiusFraction m y * ((m.originalHeight : K) / 2) * sin (theta pi m x)

end Unwrap

/-! ## Concrete inputs -/

/-- An initial content of the local variable `params` of `main`. -/
def exampleStack : Driver.BubbleScopeParameters :=
  ⟨0, 0, 0, 0, 0, 0, 0, 0, 0, 0, 0, .PREVIEW, ""⟩

/-- An argument vector for `main` with ten positional arguments. -/
def exampleArgv : List String :=
  ["bubblescope", "0", "640", "480", "800", "0.25", "0.75", "0.5", "0.5", "0", "180"]

/-- A parameter record to pass to `getParameters`. -/
def exampleParameters : CommandLine.BubbleScopeParameters :=
  ⟨0, 640, 480, 800, 1 / 4, 3 / 4, 1 / 2, 1 / 2, 180, 0, 0, 0, 0, 0, none, none, none⟩

/-- Flag/value pairs for `getParameters`; the input width is given twice. -/
def examplePairs : List (String × String) :=
  [("-iw", "320"), ("--offset", "90"), ("-rmin", "0.5"), ("--inwidth", "1280")]

/-- A calibration with an unwrap height of 100. -/
def exampleCalibration : Unwrap.CalibrationModel :=
  ⟨640, 480, 1 / 2, 1 / 2, 1 / 4, 3 / 5, 180, 800, 100⟩

/-! ## Properties of `getParameters` -/

namespace CommandLine

theorem clParamCount_eq : clParamCount = clParams.length := by decide

theorem switchType_next {sc : Scanf} {helpCode : Int} {argv : List String}
    {t : CLParameterType} {i : Nat} {params : BubbleScopeParameters} {k : Nat}
    {q : BubbleScopeParameters}
    (h : switchType sc helpCode argv t (i + 1) params = .next k q) :
    i ≤ k ∧ (i < argv.length → k < argv.length) := by
  cases t <;> simp only [switchType] at h
  case HELP => cases h
  case SHOW_ORIGINAL =>
    injection h with h1 _
    subst h1
    simp
  case SHOW_UNWRAP =>
    injection h with h1 _
    subst h1
    simp
  all_goals
    cases hv : argv[i + 1]? with
    | none => rw [hv] at h; cases h
    | some a =>
      rw [hv] at h
      injection h with h1 _
      subst h1
      obtain ⟨hlt, _⟩ := List.getElem?_eq_some_iff.mp hv
      exact ⟨Nat.le_succ i, fun _ => hlt⟩

theorem paramLoop_next {sc : Scanf} {helpCode : Int} {argv : List String} :
    ∀ (rows : List CLParameter) (i : Nat) (params : BubbleScopeParameters) {k : Nat}
      {q : BubbleScopeParameters},
      paramLoop sc helpCode argv rows i params = .next k q →
      i ≤ k ∧ (i < argv.length → k < argv.length) := by
  intro rows
  induction rows with
  | nil =>
    intro i params k q h
    simp only [paramLoop] at h
    injection h with h1 _
    subst h1
    exact ⟨le_refl _, id⟩
  | cons c rows ih =>
    intro i params k q h
    simp only [paramLoop] at h
    cases ha : argv[i]? with
    | none => rw [ha] at h; cases h
    | some a =>
      rw [ha] at h
      simp only at h
      split at h
      · cases hs : switchType sc helpCode argv c.type (i + 1) params with
        | next i' params' =>
          rw [hs] at h
          simp only at h
          have h1 := switchType_next hs
          have h2 := ih i' params' h
          exact ⟨le_trans h1.1 h2.1, fun hi => h2.2 (h1.2 hi)⟩
        | ret code params' => rw [hs] at h; cases h
        | outOfBounds j => rw [hs] at h; cases h
      · exact ih i params h

theorem argLoop_enough {sc : Scanf} {helpCode : Int} {argv : List String} :
    ∀ (fuel i : Nat) (params : BubbleScopeParameters), argv.length ≤ i + fuel →
      argLoop sc helpCode argv fuel i params ≠ .outOfFuel := by
  intro fuel
  induction fuel with
  | zero =>
    intro i params h
    unfold argLoop
    have : ¬ i < argv.length := by omega
    simp [this]
  | succ fuel ih =>
    intro i params h
    unfold argLoop
    by_cases hi : i < argv.length
    · simp only [hi, if_true]
      cases hp : paramLoop sc helpCode argv clParams i params with
      | next i' params' =>
        simp only
        have := (paramLoop_next clParams i params hp).1
        exact ih (i' + 1) params' (by omega)
      | ret code params' => simp
      | outOfBounds j => simp
    · simp [hi]

theorem getLast?_of_getElem? {argv : List String} {i : Nat} {a : String}
    (ha : argv[i]? = some a) (hi : i + 1 = argv.length) : argv.getLast? = some a := by
  rw [List.getLast?_eq_getElem?]
  have : argv.length - 1 = i := by omega
  rw [this, ha]

theorem switchType_ne_outOfBounds {sc : Scanf} {helpCode : Int} {argv : List String}
    {t : CLParameterType} {i : Nat} {params : BubbleScopeParameters}
    (h : t.takesValue = true → i + 1 < argv.length) (k : Nat) :
    switchType sc helpCode argv t (i + 1) params ≠ .outOfBounds k := by
  cases t <;> simp only [switchType] <;> try simp
  all_goals
    have hlt := h rfl
    rw [List.getElem?_eq_getElem hlt]
    simp

theorem paramLoop_ne_outOfBounds {sc : Scanf} {helpCode : Int} {argv : List String}
    (hlast : ∀ s, argv.getLast? = some s → isValueFlag s = false) :
    ∀ (rows : List CLParameter), (∀ c ∈ rows, c ∈ clParams) →
      ∀ (i : Nat) (params : BubbleScopeParameters), i < argv.length → ∀ k,
      paramLoop sc helpCode argv rows i params ≠ .outOfBounds k := by
  intro rows
  induction rows with
  | nil => intro _ i params _ k; simp [paramLoop]
  | cons c rows ih =>
    intro hrows i params hi k
    have hrows' : ∀ c ∈ rows, c ∈ clParams := fun c' hc' => hrows c' (List.mem_cons_of_mem _ hc')
    simp only [paramLoop]
    rw [List.getElem?_eq_getElem hi]
    simp only
    split
    · rename_i hm
      have hval : c.type.takesValue = true → i + 1 < argv.length := by
        intro ht
        by_contra hnot
        have hlen : i + 1 = argv.length := by omega
        have hl := hlast _ (getLast?_of_getElem? (List.getElem?_eq_getElem hi) hlen)
        have hc : c ∈ clParams := hrows c (List.mem_cons_self _ _)
        have : isValueFlag argv[i] = true := by
          simp only [isValueFlag, List.any_eq_true]
          refine ⟨c, hc, ?_⟩
          simp only [CLParameter.matches, ht, Bool.true_and, Bool.or_eq_true, beq_iff_eq]
          exact hm
        rw [hl] at this
        cases this
      cases hs : switchType sc helpCode argv c.type (i + 1) params with
      | next i' params' =>
        simp only
        exact ih hrows' i' params' ((switchType_next hs).2 hi) k
      | ret code params' => simp
      | outOfBounds j => exact absurd hs (switchType_ne_outOfBounds hval j)
    · exact ih hrows' i params hi k

theorem argLoop_ne_outOfBounds {sc : Scanf} {helpCode : Int} {argv : List String}
    (hlast : ∀ s, argv.getLast? = some s → isValueFlag s = false) :
    ∀ (fuel i : Nat) (params : BubbleScopeParameters) (k : Nat),
      argLoop sc helpCode argv fuel i params ≠ .outOfBounds k := by
  intro fuel
  induction fuel with
  | zero =>
    intro i params k
    unfold argLoop
    split <;> simp
  | succ fuel ih =>
    intro i params k
    unfold argLoop
    by_cases hi : i < argv.length
    · simp only [hi, if_true]
      cases hp : paramLoop sc helpCode argv clParams i params with
      | next i' params' => exact ih (i' + 1) params' k
      | ret code params' => simp
      | outOfBounds j =>
        exact absurd hp (paramLoop_ne_outOfBounds hlast clParams (fun _ h => h) i params hi j)
    · simp [hi]

theorem getParameters_returns {sc : Scanf} {helpCode : Int}
    (params : BubbleScopeParameters) {argv : List String}
    (hlast : ∀ s, argv.getLast? = some s → isValueFlag s = false) :
    (∀ k, getParameters sc helpCode params argv ≠ .outOfBounds k) ∧
      ∃ code params', getParameters sc helpCode params argv = .returned code params' := by
  have hb : ∀ k, argLoop sc helpCode argv argv.length 0 params ≠ .outOfBounds k :=
    argLoop_ne_outOfBounds hlast argv.length 0 params
  have hf : argLoop sc helpCode argv argv.length 0 params ≠ .outOfFuel :=
    argLoop_enough argv.length 0 params (by omega)
  refine ⟨hb, ?_⟩
  unfold getParameters
  cases h : argLoop sc helpCode argv argv.length 0 params with
  | returned code params' => exact ⟨code, params', rfl⟩
  | outOfBounds k => exact absurd h (hb k)
  | outOfFuel => exact absurd h hf

theorem matches_iff (c : CLParameter) (s : String) :
    c.matches s = true ↔ (c.shortParam = s ∨ c.longParam = s) := by
  simp [CLParameter.matches]

/-- No string is the short or long form of two rows of the table. -/
theorem clParams_unique : ∀ c ∈ clParams, ∀ c' ∈ clParams,
    (c.shortParam = c'.shortParam ∨ c.shortParam = c'.longParam ∨
      c.longParam = c'.shortParam ∨ c.longParam = c'.longParam) → c = c' := by
  decide

theorem matches_unique {c c' : CLParameter} {s : String} (hc : c ∈ clParams)
    (hc' : c' ∈ clParams) (hm : c.matches s = true) (hm' : c'.matches s = true) : c = c' := by
  rw [matches_iff] at hm hm'
  apply clParams_unique c hc c' hc'
  rcases hm with h | h <;> rcases hm' with h' | h' <;> subst h <;> simp [h']

theorem paramOf_mem {f : String} {c : CLParameter} (h : paramOf f = some c) :
    c ∈ clParams ∧ c.matches f = true := by
  unfold paramOf at h
  exact ⟨List.mem_of_find?_eq_some h,
    List.find?_some (p := fun c : CLParameter => c.matches f) h⟩

theorem names_iff {f : String} {c : CLParameter} (h : paramOf f = some c)
    (t : CLParameterType) : names t f = decide (c.type = t) := by
  obtain ⟨hc, hm⟩ := paramOf_mem h
  by_cases ht : c.type = t
  · simp only [ht, decide_True]
    simp only [names, List.any_eq_true]
    exact ⟨c, hc, by simp [ht, hm]⟩
  · simp only [ht, decide_False]
    rw [Bool.eq_false_iff]
    intro hn
    simp only [names, List.any_eq_true, Bool.and_eq_true, beq_iff_eq] at hn
    obtain ⟨c', hc', ht', hm'⟩ := hn
    have := matches_unique hc hc' hm hm'
    subst this
    exact ht ht'

theorem isFlag_false {s : String} (h : isFlag s = false) :
    ∀ c ∈ clParams, ¬ (c.shortParam = s ∨ c.longParam = s) := by
  intro c hc hm
  have : isFlag s = true := by
    simp only [isFlag, List.any_eq_true]
    exact ⟨c, hc, (matches_iff c s).mpr hm⟩
  rw [h] at this
  cases this

theorem paramLoop_noMatch {sc : Scanf} {helpCode : Int} {argv : List String} {i : Nat}
    {a : String} (ha : argv[i]? = some a) :
    ∀ (rows : List CLParameter) (params : BubbleScopeParameters),
      (∀ c ∈ rows, ¬ (c.shortParam = a ∨ c.longParam = a)) →
      paramLoop sc helpCode argv rows i params = .next i params := by
  intro rows
  induction rows with
  | nil => intro params _; simp [paramLoop]
  | cons c rows ih =>
    intro params h
    simp only [paramLoop, ha]
    rw [if_neg (h c (List.mem_cons_self _ _))]
    exact ih params fun c' hc' => h c' (List.mem_cons_of_mem _ hc')

theorem paramLoop_flag {sc : Scanf} {helpCode : Int} {argv : List String} {i : Nat}
    {f v : String} (hf : argv[i]? = some f) (hv : argv[i + 1]? = some v)
    (hnv : isFlag v = false) :
    ∀ (rows : List CLParameter) (params : BubbleScopeParameters) (c : CLParameter),
      (∀ r ∈ rows, r ∈ clParams) → rows.find? (fun r => r.matches f) = some c →
      ∀ q, switchType sc helpCode argv c.type (i + 1) params = .next (i + 1) q →
      paramLoop sc helpCode argv rows i params = .next (i + 1) q := by
  intro rows
  induction rows with
  | nil => intro params c _ h; simp at h
  | cons r rows ih =>
    intro params c hrows hfind q hs
    have hrows' : ∀ r ∈ rows, r ∈ clParams := fun r' h' => hrows r' (List.mem_cons_of_mem _ h')
    simp only [paramLoop, hf]
    by_cases hm : r.matches f = true
    · simp only [List.find?_cons, hm] at hfind
      injection hfind with hrc
      subst hrc
      rw [if_pos ((matches_iff r f).mp hm), hs]
      simp only
      exact paramLoop_noMatch hv rows q fun c' hc' => isFlag_false hnv c' (hrows' c' hc')
    · have hm' : r.matches f = false := by simpa using hm
      simp only [List.find?_cons, hm'] at hfind
      rw [if_neg (fun h => hm ((matches_iff r f).mpr h))]
      exact ih params c hrows' hfind q hs

theorem switchType_numeric {sc : Scanf} {helpCode : Int} {argv : List String} {i : Nat}
    {f v : String} {c : CLParameter} (params : BubbleScopeParameters)
    (hc : paramOf f = some c) (hs : scansAs sc c.type v = true) (hv : argv[i + 1]? = some v) :
    switchType sc helpCode argv c.type (i + 1) params
      = .next (i + 1) (expectedParameters sc [(f, v)] params) := by
  have hn := names_iff hc
  cases ht : c.type <;> rw [ht] at hs hn <;> simp only [scansAs] at hs <;>
    first
    | cases hs
    | (simp only [switchType, hv, expectedParameters, intAfter, floatAfter, lastValue, hn,
        sscanf_d, sscanf_f]
       simp)

theorem lastValue_scans {sc : Scanf} {t : CLParameterType} :
    ∀ (pairs : List (String × String)), (∀ fv ∈ pairs, wellFormedPair sc fv = true) →
      ∀ w, lastValue t pairs = some w → scansAs sc t w = true := by
  intro pairs
  induction pairs with
  | nil => intro _ w h; simp [lastValue] at h
  | cons fv rest ih =>
    intro hwf w h
    have hrest : ∀ fv' ∈ rest, wellFormedPair sc fv' = true :=
      fun fv' h' => hwf fv' (List.mem_cons_of_mem _ h')
    simp only [lastValue] at h
    cases hl : lastValue t rest with
    | some w' =>
      rw [hl] at h
      injection h with h
      subst h
      exact ih hrest _ hl
    | none =>
      rw [hl] at h
      simp only at h
      have hfv := hwf fv (List.mem_cons_self _ _)
      simp only [wellFormedPair] at hfv
      cases hc : paramOf fv.1 with
      | none => rw [hc] at hfv; cases hfv
      | some c =>
        rw [hc] at hfv
        simp only [Bool.and_eq_true] at hfv
        rw [names_iff hc t] at h
        by_cases ht : c.type = t
        · simp only [ht, decide_True, if_true] at h
          injection h with h
          subst h
          rw [← ht]
          exact hfv.1
        · simp [ht] at h

theorem intAfter_cons {sc : Scanf} {t : CLParameterType} {fv : String × String}
    {rest : List (String × String)} (old : Int)
    (h : ∀ w, lastValue t rest = some w → (sc.scanInt w).isSome = true) :
    intAfter sc t (fv :: rest) old = intAfter sc t rest (intAfter sc t [fv] old) := by
  simp only [intAfter, lastValue]
  cases hl : lastValue t rest with
  | none => simp
  | some w =>
    obtain ⟨n, hn⟩ := Option.isSome_iff_exists.mp (h w hl)
    simp [hn]

theorem floatAfter_cons {sc : Scanf} {t : CLParameterType} {fv : String × String}
    {rest : List (String × String)} (old : ℚ)
    (h : ∀ w, lastValue t rest = some w → (sc.scanFloat w).isSome = true) :
    floatAfter sc t (fv :: rest) old = floatAfter sc t rest (floatAfter sc t [fv] old) := by
  simp only [floatAfter, lastValue]
  cases hl : lastValue t rest with
  | none => simp
  | some w =>
    obtain ⟨n, hn⟩ := Option.isSome_iff_exists.mp (h w hl)
    simp [hn]

theorem expectedParameters_nil (sc : Scanf) (params : BubbleScopeParameters) :
    expectedParameters sc [] params = params := by
  simp [expectedParameters, intAfter, floatAfter, lastValue]

theorem expectedParameters_cons {sc : Scanf} {fv : String × String}
    {rest : List (String × String)} (params : BubbleScopeParameters)
    (hwf : ∀ fv' ∈ rest, wellFormedPair sc fv' = true) :
    expectedParameters sc (fv :: rest) params
      = expectedParameters sc rest (expectedParameters sc [fv] params) := by
  have hs : ∀ t w, lastValue t rest = some w → scansAs sc t w = true :=
    fun _ => lastValue_scans rest hwf
  simp only [expectedParameters]
  rw [intAfter_cons params.captureDevice (fun w hw => by simpa [scansAs] using hs _ w hw),
    intAfter_cons params.originalWidth (fun w hw => by simpa [scansAs] using hs _ w hw),
    intAfter_cons params.originalHeight (fun w hw => by simpa [scansAs] using hs _ w hw),
    intAfter_cons params.unwrapWidth (fun w hw => by simpa [scansAs] using hs _ w hw),
    floatAfter_cons params.radiusMin (fun w hw => by simpa [scansAs] using hs _ w hw),
    floatAfter_cons params.radiusMax (fun w hw => by simpa [scansAs] using hs _ w hw),
    floatAfter_cons params.uCentre (fun w hw => by simpa [scansAs] using hs _ w hw),
    floatAfter_cons params.vCentre (fun w hw => by simpa [scansAs] using hs _ w hw),
    floatAfter_cons params.offsetAngle (fun w hw => by simpa [scansAs] using hs _ w hw)]

theorem argLoop_pairs {sc : Scanf} {helpCode : Int} :
    ∀ (pairs : List (String × String)) (pre : List String) (params : BubbleScopeParameters)
      (fuel : Nat), (∀ fv ∈ pairs, wellFormedPair sc fv = true) →
      (argvOfPairs pairs).length ≤ fuel →
      argLoop sc helpCode (pre ++ argvOfPairs pairs) fuel pre.length params
        = .returned 0 (expectedParameters sc pairs params) := by
  intro pairs
  induction pairs with
  | nil =>
    intro pre params fuel _ _
    unfold argLoop
    simp [argvOfPairs, expectedParameters_nil]
  | cons fv rest ih =>
    intro pre params fuel hwf hfuel
    have hrest : ∀ fv' ∈ rest, wellFormedPair sc fv' = true :=
      fun fv' h' => hwf fv' (List.mem_cons_of_mem _ h')
    have hfv := hwf fv (List.mem_cons_self _ _)
    simp only [wellFormedPair] at hfv
    cases hc : paramOf fv.1 with
    | none => rw [hc] at hfv; cases hfv
    | some c =>
      rw [hc] at hfv
      simp only [Bool.and_eq_true, Bool.not_eq_true'] at hfv
      obtain ⟨hscan, hnv⟩ := hfv
      simp only [argvOfPairs, List.length_cons] at hfuel ⊢
      obtain ⟨fuel', rfl⟩ : ∃ fuel', fuel = fuel' + 1 := ⟨fuel - 1, by omega⟩
      have h0 : (pre ++ fv.1 :: fv.2 :: argvOfPairs rest)[pre.length]? = some fv.1 := by
        rw [List.getElem?_append_right (le_refl _)]
        simp
      have h1 : (pre ++ fv.1 :: fv.2 :: argvOfPairs rest)[pre.length + 1]? = some fv.2 := by
        rw [List.getElem?_append_right (by omega)]
        simp
      have hp : paramLoop sc helpCode (pre ++ fv.1 :: fv.2 :: argvOfPairs rest) clParams
          pre.length params = .next (pre.length + 1) (expectedParameters sc [fv] params) :=
        paramLoop_flag h0 h1 hnv clParams params c (fun _ h => h) hc _
          (switchType_numeric params hc hscan h1)
      unfold argLoop
      have hlt : pre.length < (pre ++ fv.1 :: fv.2 :: argvOfPairs rest).length := by
        simp
      rw [if_pos hlt]
      simp only [hp]
      have := ih (pre ++ [fv.1, fv.2]) (expectedParameters sc [fv] params) fuel' hrest
        (by omega)
      simp only [List.append_assoc, List.cons_append, List.nil_append, List.length_append,
        List.length_cons, List.length_nil] at this
      rw [this, expectedParameters_cons params hrest]

theorem getParameters_pairs (sc : Scanf) (helpCode : Int) (params : BubbleScopeParameters)
    (prog : String) (pairs : List (String × String)) (hprog : isFlag prog = false)
    (hwf : ∀ fv ∈ pairs, wellFormedPair sc fv = true) :
    getParameters sc helpCode params (prog :: argvOfPairs pairs)
      = .returned 0 (expectedParameters sc pairs params) := by
  unfold getParameters
  simp only [List.length_cons]
  unfold argLoop
  simp only [List.length_cons, Nat.zero_lt_succ, if_true]
  have h0 : (prog :: argvOfPairs pairs)[0]? = some prog := by simp
  rw [paramLoop_noMatch h0 clParams params (isFlag_false hprog)]
  simp only
  exact argLoop_pairs pairs [prog] params _ hwf (le_refl _)

theorem switchType_append {sc : Scanf} {helpCode : Int} {argv : List String}
    (ext : List String) {t : CLParameterType} {i : Nat} {params : BubbleScopeParameters}
    (h : ∀ j, switchType sc helpCode argv t i params ≠ .outOfBounds j) :
    switchType sc helpCode (argv ++ ext) t i params = switchType sc helpCode argv t i params := by
  cases t <;> simp only [switchType] at h ⊢
  all_goals
    cases hv : argv[i]? with
    | none => rw [hv] at h; exact absurd rfl (h i)
    | some a =>
      obtain ⟨hlt, _⟩ := List.getElem?_eq_some_iff.mp hv
      rw [List.getElem?_append_left hlt, hv]

theorem switchType_ret {sc : Scanf} {helpCode : Int} {argv : List String}
    {t : CLParameterType} {i : Nat} {params : BubbleScopeParameters} {code : Int}
    {q : BubbleScopeParameters} (h : switchType sc helpCode argv t i params = .ret code q) :
    code = helpCode := by
  cases t <;> simp only [switchType] at h
  case HELP => injection h with h1 _; exact h1.symm
  case SHOW_ORIGINAL => cases h
  case SHOW_UNWRAP => cases h
  all_goals
    cases hv : argv[i]? with
    | none => rw [hv] at h; cases h
    | some a => rw [hv] at h; cases h

theorem paramLoop_ret {sc : Scanf} {helpCode : Int} {argv : List String} :
    ∀ (rows : List CLParameter) (i : Nat) (params : BubbleScopeParameters) {code : Int}
      {q : BubbleScopeParameters},
      paramLoop sc helpCode argv rows i params = .ret code q → code = helpCode := by
  intro rows
  induction rows with
  | nil => intro i params code q h; simp [paramLoop] at h
  | cons c rows ih =>
    intro i params code q h
    simp only [paramLoop] at h
    cases ha : argv[i]? with
    | none => rw [ha] at h; cases h
    | some a =>
      rw [ha] at h
      simp only at h
      split at h
      · cases hs : switchType sc helpCode argv c.type (i + 1) params with
        | next i' params' => rw [hs] at h; exact ih i' params' h
        | ret code' params' =>
          rw [hs] at h
          injection h with h1 _
          rw [← h1]
          exact switchType_ret hs
        | outOfBounds j => rw [hs] at h; cases h
      · exact ih i params h

theorem paramLoop_append {sc : Scanf} {helpCode : Int} {argv : List String}
    (ext : List String) :
    ∀ (rows : List CLParameter) (i : Nat) (params : BubbleScopeParameters),
      (∀ j, paramLoop sc helpCode argv rows i params ≠ .outOfBounds j) →
      paramLoop sc helpCode (argv ++ ext) rows i params
        = paramLoop sc helpCode argv rows i params := by
  intro rows
  induction rows with
  | nil => intro i params _; simp [paramLoop]
  | cons c rows ih =>
    intro i params h
    simp only [paramLoop] at h ⊢
    cases ha : argv[i]? with
    | none => rw [ha] at h; exact absurd rfl (h i)
    | some a =>
      obtain ⟨hlt, _⟩ := List.getElem?_eq_some_iff.mp ha
      rw [List.getElem?_append_left hlt, ha]
      rw [ha] at h
      simp only at h ⊢
      by_cases hm : c.shortParam = a ∨ c.longParam = a
      · simp only [if_pos hm] at h ⊢
        cases hs : switchType sc helpCode argv c.type (i + 1) params with
        | next i' params' =>
          rw [hs] at h
          rw [switchType_append ext (by rw [hs]; intro j hj; cases hj), hs]
          exact ih i' params' h
        | ret code' params' =>
          rw [switchType_append ext (by rw [hs]; intro j hj; cases hj), hs]
        | outOfBounds j => rw [hs] at h; exact absurd rfl (h j)
      · simp only [if_neg hm] at h ⊢
        exact ih i params h

theorem paramLoop_help {sc : Scanf} {helpCode : Int} {argv : List String} {i : Nat}
    {h : String} (hh : h = "-h" ∨ h = "--help") (ha : argv[i]? = some h)
    (params : BubbleScopeParameters) :
    paramLoop sc helpCode argv clParams i params = .ret helpCode params := by
  have hm : "-h" = h ∨ "--help" = h := by
    rcases hh with rfl | rfl
    · exact Or.inl rfl
    · exact Or.inr rfl
  simp only [clParams, paramLoop, ha, if_pos hm, switchType]

theorem argLoop_help {sc : Scanf} {helpCode : Int} {pre : List String} {h : String}
    (post : List String) (hh : h = "-h" ∨ h = "--help") :
    ∀ (fuel i : Nat) (params : BubbleScopeParameters) (code : Int)
      (q : BubbleScopeParameters), i ≤ pre.length →
      argLoop sc helpCode pre fuel i params = .returned code q →
      ∀ fuel', (pre ++ h :: post).length ≤ i + fuel' →
      argLoop sc helpCode (pre ++ h :: post) fuel' i params = .returned helpCode q := by
  intro fuel
  induction fuel with
  | zero =>
    intro i params code q hi hrun fuel' hfuel
    unfold argLoop at hrun
    by_cases hlt : i < pre.length
    · simp [hlt] at hrun
    · simp only [hlt, if_false] at hrun
      injection hrun with _ hq
      subst hq
      have hieq : i = pre.length := by omega
      subst hieq
      simp only [List.length_append, List.length_cons] at hfuel
      obtain ⟨fuel'', rfl⟩ : ∃ n, fuel' = n + 1 := ⟨fuel' - 1, by omega⟩
      unfold argLoop
      have hl : pre.length < (pre ++ h :: post).length := by simp
      have ha : (pre ++ h :: post)[pre.length]? = some h := by
        rw [List.getElem?_append_right (le_refl _)]
        simp
      rw [if_pos hl]
      simp only [paramLoop_help hh ha]
  | succ fuel ih =>
    intro i params code q hi hrun fuel' hfuel
    unfold argLoop at hrun
    simp only [List.length_append, List.length_cons] at hfuel
    obtain ⟨fuel'', rfl⟩ : ∃ n, fuel' = n + 1 := ⟨fuel' - 1, by omega⟩
    have hl : i < (pre ++ h :: post).length := by
      simp only [List.length_append, List.length_cons]
      omega
    by_cases hlt : i < pre.length
    · simp only [hlt, if_true] at hrun
      unfold argLoop
      rw [if_pos hl]
      cases hp : paramLoop sc helpCode pre clParams i params with
      | next i' params' =>
        rw [hp] at hrun
        simp only at hrun
        have hb := paramLoop_next clParams i params hp
        rw [paramLoop_append (h :: post) clParams i params
          (by rw [hp]; intro j hj; cases hj), hp]
        simp only
        refine ih (i' + 1) params' code q (hb.2 hlt) hrun fuel'' ?_
        simp only [List.length_append, List.length_cons]
        have := hb.1
        omega
      | ret code' params' =>
        rw [hp] at hrun
        simp only at hrun
        injection hrun with _ hq
        subst hq
        rw [paramLoop_append (h :: post) clParams i params
          (by rw [hp]; intro j hj; cases hj), hp]
        simp only
        rw [paramLoop_ret clParams i params hp]
      | outOfBounds j => rw [hp] at hrun; cases hrun
    · simp only [hlt, if_false] at hrun
      injection hrun with _ hq
      subst hq
      have hieq : i = pre.length := by omega
      subst hieq
      unfold argLoop
      have ha : (pre ++ h :: post)[pre.length]? = some h := by
        rw [List.getElem?_append_right (le_refl _)]
        simp
      rw [if_pos hl]
      simp only [paramLoop_help hh ha]

theorem getParameters_help {sc : Scanf} {helpCode : Int} {params : BubbleScopeParameters}
    {pre : List String} {h : String} (post : List String) (hh : h = "-h" ∨ h = "--help")
    {code : Int} {q : BubbleScopeParameters}
    (hrun : getParameters sc helpCode params pre = .returned code q) :
    getParameters sc helpCode params (pre ++ h :: post) = .returned helpCode q := by
  unfold getParameters at hrun ⊢
  exact argLoop_help post hh pre.length 0 params code q (Nat.zero_le _) hrun _ (by omega)

/-- Claim C4. `getParameters` populates the parameters from `argv`: on a program
name that equals no flag followed by flag/value pairs, each flag the short or
long form of one of the nine numeric parameters and each value a well-formed
number that equals no flag, it returns 0 and leaves the record in which every
named field holds the last value given for it and every other field is
unchanged. -/
theorem getParameters_populates (sc : Scanf) (helpCode : Int)
    (params : BubbleScopeParameters) (prog : String) (pairs : List (String × String))
    (hprog : isFlag prog = false) (hwf : ∀ fv ∈ pairs, wellFormedPair sc fv = true) :
    getParameters sc helpCode params (prog :: argvOfPairs pairs)
      = .returned 0 (expectedParameters sc pairs params) :=
  getParameters_pairs sc helpCode params prog pairs hprog hwf

theorem isValueFlag_of_isFlag {s : String} (h : isFlag s = false) : isValueFlag s = false := by
  rw [Bool.eq_false_iff]
  intro hv
  simp only [isValueFlag, List.any_eq_true, Bool.and_eq_true] at hv
  obtain ⟨c, hc, _, hm⟩ := hv
  exact isFlag_false h c hc ((matches_iff c s).mp hm)

theorem argvOfPairs_getLast? :
    ∀ (pairs : List (String × String)) (x : String),
      (∀ fv ∈ pairs, isFlag fv.2 = false) → (pairs = [] → isValueFlag x = false) →
      ∀ s, (x :: argvOfPairs pairs).getLast? = some s → isValueFlag s = false := by
  intro pairs
  induction pairs with
  | nil =>
    intro x _ hx s hs
    simp only [argvOfPairs, List.getLast?_singleton] at hs
    injection hs with hs
    subst hs
    exact hx rfl
  | cons fv rest ih =>
    intro x hv _ s hs
    simp only [argvOfPairs, List.getLast?_cons_cons] at hs
    exact ih fv.2 (fun fv' h' => hv fv' (List.mem_cons_of_mem _ h'))
      (fun _ => isValueFlag_of_isFlag (hv fv (List.mem_cons_self _ _))) s hs

theorem wellFormedPair_value {sc : Scanf} {fv : String × String}
    (h : wellFormedPair sc fv = true) : isFlag fv.2 = false := by
  simp only [wellFormedPair] at h
  cases hc : paramOf fv.1 with
  | none => rw [hc] at h; cases h
  | some c =>
    rw [hc] at h
    simp only [Bool.and_eq_true, Bool.not_eq_true'] at h
    exact h.2

/-- Claim C6, amended. Help stops parsing unless the help flag is taken as a
value: after a program name and well-formed numeric flag/value pairs, where the
prefix is not a bare program name that is itself a flag taking a value, an
argument `-h` or `--help` makes `getParameters` return the `HELP` code with the
parameters exactly as the call on the prefix alone leaves them, whatever follows
the help flag. -/
theorem getParameters_help_stops (sc : Scanf) (helpCode : Int)
    (params : BubbleScopeParameters) (prog : String) (pairs : List (String × String))
    (h : String) (post : List String) (hprog : pairs = [] → isValueFlag prog = false)
    (hwf : ∀ fv ∈ pairs, wellFormedPair sc fv = true) (hh : h = "-h" ∨ h = "--help") :
    ∃ code q, getParameters sc helpCode params (prog :: argvOfPairs pairs) = .returned code q ∧
      getParameters sc helpCode params ((prog :: argvOfPairs pairs) ++ h :: post)
        = .returned helpCode q := by
  have hret : ∃ code q,
      getParameters sc helpCode params (prog :: argvOfPairs pairs) = .returned code q :=
    (getParameters_returns params (argvOfPairs_getLast? pairs prog
      (fun fv hfv => wellFormedPair_value (hwf fv hfv)) hprog)).2
  obtain ⟨code, q, hq⟩ := hret
  exact ⟨code, q, hq, getParameters_help post hh hq⟩

/-- Claim C6, counterexample. With the program name `-d` and no pair before it,
`-h` is read as the value of `-d`: the rows after `-d` are compared with `-h`, the
`HELP` row is already passed, and parsing goes on. The arguments `-ow 1024`
after the help flag set the unwrap width, and the call returns 0 at the end of
the loop, here with 1 as the value of `HELP`. Without those arguments the record
is unchanged, and on the prefix alone the call reads `argv[1]` with `argc = 1`. -/
theorem getParameters_help_swallowed :
    isValueFlag "-d" = true ∧
    getParameters decimalScanf 1
        ⟨0, 640, 480, 800, 1 / 4, 3 / 4, 1 / 2, 1 / 2, 180, 0, 0, 0, 0, 0, none, none, none⟩
        (("-d" :: argvOfPairs []) ++ "-h" :: ["-ow", "1024"])
      = .returned 0
        ⟨0, 640, 480, 1024, 1 / 4, 3 / 4, 1 / 2, 1 / 2, 180, 0, 0, 0, 0, 0, none, none, none⟩ ∧
    getParameters decimalScanf 1
        ⟨0, 640, 480, 800, 1 / 4, 3 / 4, 1 / 2, 1 / 2, 180, 0, 0, 0, 0, 0, none, none, none⟩
        (("-d" :: argvOfPairs []) ++ "-h" :: [])
      = .returned 0
        ⟨0, 640, 480, 800, 1 / 4, 3 / 4, 1 / 2, 1 / 2, 180, 0, 0, 0, 0, 0, none, none, none⟩ ∧
    getParameters decimalScanf 1
        ⟨0, 640, 480, 800, 1 / 4, 3 / 4, 1 / 2, 1 / 2, 180, 0, 0, 0, 0, 0, none, none, none⟩
        ("-d" :: argvOfPairs [])
      = .outOfBounds 1 :=
  ⟨by decide, rfl, rfl, rfl⟩

/-- Claim C8. Index safety of `getParameters`: for every argument vector with
`argc ≥ 1` whose last element is not the short or the long form of a flag that
takes a value, no read of `argv[i]`, in a comparison or after `i++`, has
`i ≥ argc`; the call runs to its `return`. -/
theorem getParameters_index_safe (sc : Scanf) (helpCode : Int)
    (params : BubbleScopeParameters) (argv : List String) (_hargc : 1 ≤ argv.length)
    (hlast : ∀ s, argv.getLast? = some s → isValueFlag s = false) :
    (∀ k, getParameters sc helpCode params argv ≠ .outOfBounds k) ∧
      ∃ code params', getParameters sc helpCode params argv = .returned code params' :=
  getParameters_returns params hlast

/-- Claim C4, witness, on `examplePairs`. -/
theorem getParameters_populates_witness :
    isFlag "bubblescope" = false ∧
    (∀ fv ∈ examplePairs, wellFormedPair decimalScanf fv = true) ∧
    getParameters decimalScanf 0 exampleParameters ("bubblescope" :: argvOfPairs examplePairs)
      = .returned 0 (expectedParameters decimalScanf examplePairs exampleParameters) ∧
    (expectedParameters decimalScanf examplePairs exampleParameters).originalWidth = 1280 ∧
    (expectedParameters decimalScanf examplePairs exampleParameters).originalHeight = 480 :=
  ⟨by decide, by decide,
    getParameters_populates decimalScanf 0 exampleParameters "bubblescope" examplePairs
      (by decide) (by decide),
    by decide, by decide⟩

/-- Claim C6, witness of the amended statement, on `examplePairs` followed by
`--help` and two more arguments, with 1 as the value of `HELP`. -/
theorem getParameters_help_stops_witness :
    (examplePairs = [] → isValueFlag "bubblescope" = false) ∧
    (∀ fv ∈ examplePairs, wellFormedPair decimalScanf fv = true) ∧
    ∃ code q,
      getParameters decimalScanf 1 exampleParameters ("bubblescope" :: argvOfPairs examplePairs)
        = .returned code q ∧
      getParameters decimalScanf 1 exampleParameters
          (("bubblescope" :: argvOfPairs examplePairs) ++ "--help" :: ["-ow", "1024"])
        = .returned 1 q :=
  ⟨fun _ => by decide, by decide,
    getParameters_help_stops decimalScanf 1 exampleParameters "bubblescope" examplePairs
      "--help" ["-ow", "1024"] (fun _ => by decide) (by decide) (Or.inr rfl)⟩

/-- Claim C8, witness, on an argument vector in which a flag follows a flag and
the last element is `-o`. -/
theorem getParameters_index_safe_witness :
    1 ≤ ["bubblescope", "-d", "-iw", "320", "-u", "-s", "out", "-o"].length ∧
    isValueFlag "-o" = false ∧
    (∀ k, getParameters decimalScanf 0 exampleParameters
        ["bubblescope", "-d", "-iw", "320", "-u", "-s", "out", "-o"] ≠ .outOfBounds k) ∧
    ∃ code q, getParameters decimalScanf 0 exampleParameters
        ["bubblescope", "-d", "-iw", "320", "-u", "-s", "out", "-o"] = .returned code q :=
  ⟨by decide, by decide,
    getParameters_index_safe decimalScanf 0 exampleParameters
      ["bubblescope", "-d", "-iw", "320", "-u", "-s", "out", "-o"] (by decide)
      (fun s hs => by
        simp only [List.getLast?_cons_cons, List.getLast?_singleton] at hs
        injection hs with hs
        subst hs
        decide)⟩

end CommandLine

/-! ## Properties of `main` and of the default configuration -/

namespace Driver

theorem scanArguments_some (sc : Scanf) (stack : BubbleScopeParameters) (argv : List String)
    (h : 11 ≤ argv.length) : ∃ params, scanArguments sc stack argv = some params := by
  have h1 : argv[1]? = some argv[1] := List.getElem?_eq_getElem (by omega)
  have h2 : argv[2]? = some argv[2] := List.getElem?_eq_getElem (by omega)
  have h3 : argv[3]? = some argv[3] := List.getElem?_eq_getElem (by omega)
  have h4 : argv[4]? = some argv[4] := List.getElem?_eq_getElem (by omega)
  have h5 : argv[5]? = some argv[5] := List.getElem?_eq_getElem (by omega)
  have h6 : argv[6]? = some argv[6] := List.getElem?_eq_getElem (by omega)
  have h7 : argv[7]? = some argv[7] := List.getElem?_eq_getElem (by omega)
  have h8 : argv[8]? = some argv[8] := List.getElem?_eq_getElem (by omega)
  have h9 : argv[9]? = some argv[9] := List.getElem?_eq_getElem (by omega)
  have h10 : argv[10]? = some argv[10] := List.getElem?_eq_getElem (by omega)
  simp only [scanArguments, h1, h2, h3, h4, h5, h6, h7, h8, h9, h10, bind, Option.bind, pure]
  exact ⟨_, rfl⟩

theorem scanArguments_fields {sc : Scanf} {stack : BubbleScopeParameters} {argv : List String}
    {params : BubbleScopeParameters} (h : scanArguments sc stack argv = some params) :
    ∃ a4 a5 a6, argv[4]? = some a4 ∧ argv[5]? = some a5 ∧ argv[6]? = some a6 ∧
      params.unwrapWidth = sscanf_d sc a4 800 ∧
      params.radiusMin = sscanf_f sc a5 (1 / 4) ∧
      params.radiusMax = sscanf_f sc a6 (5033165 / 8388608) := by
  simp only [scanArguments, bind, Option.bind_eq_some, pure] at h
  obtain ⟨a1, -, a2, -, a3, -, a4, h4, a5, h5, a6, h6, a7, -, a8, -, a9, -, a10, -, h⟩ := h
  injection h with h
  subst h
  exact ⟨a4, a5, a6, h4, h5, h6, rfl, rfl, rfl⟩

theorem main_eq (sc : Scanf) (stack : BubbleScopeParameters) (argv : List String)
    (opened : Bool) (first : Mat) (iterations : List (Mat × Int))
    {params : BubbleScopeParameters} (h : scanArguments sc stack argv = some params) :
    main sc stack argv opened first iterations =
      some (if opened = false then
        ⟨[.unwrapWidth params.unwrapWidth, .originalCentre params.uCentre params.vCentre,
          .imageRadius params.radiusMin params.radiusMax, .offsetAngle params.offsetAngle],
          some (-1)⟩
      else
        ⟨[.unwrapWidth params.unwrapWidth, .originalCentre params.uCentre params.vCentre,
          .imageRadius params.radiusMin params.radiusMax, .offsetAngle params.offsetAngle,
          .originalSize first.cols first.rows, .generateTransformation]
          ++ (captureLoop iterations).calls, (captureLoop iterations).exit⟩) := by
  simp only [main, h, bind, Option.bind, pure]
  cases opened <;> simp


theorem captureLoop_calls :
    ∀ (iterations : List (Mat × Int)), ∃ frames : List Mat,
      (captureLoop iterations).calls = frames.map UnwrapperCall.unwrap ∧
      frames.length ≤ iterations.length ∧
      ((∀ it ∈ iterations, it.2 ≠ 27) → frames = iterations.map Prod.fst) := by
  intro iterations
  induction iterations with
  | nil => exact ⟨[], rfl, le_refl _, fun _ => rfl⟩
  | cons it rest ih =>
    obtain ⟨frame, key⟩ := it
    obtain ⟨frames, hc, hl, hall⟩ := ih
    by_cases hk : key = 27
    · refine ⟨[frame], ?_, ?_, ?_⟩
      · simp [captureLoop, hk]
      · simp
      · intro h
        exact absurd hk (h (frame, key) (List.mem_cons_self _ _))
    · refine ⟨frame :: frames, ?_, ?_, ?_⟩
      · simp [captureLoop, hk, hc]
      · simp only [List.length_cons]
        omega
      · intro h
        rw [hall fun it' h' => h it' (List.mem_cons_of_mem _ h')]
        rfl

theorem beforeGenerate_setup (width : Int) (u v rmin rmax angle : ℚ) (cols rows : Int)
    (rest : List UnwrapperCall) :
    beforeGenerate ([.unwrapWidth width, .originalCentre u v, .imageRadius rmin rmax,
      .offsetAngle angle, .originalSize cols rows, .generateTransformation] ++ rest)
      = some [.unwrapWidth width, .originalCentre u v, .imageRadius rmin rmax,
        .offsetAngle angle, .originalSize cols rows] := by
  simp [beforeGenerate]

theorem main_opened (sc : Scanf) (stack : BubbleScopeParameters) (argv : List String)
    (first : Mat) (iterations : List (Mat × Int)) (hargc : 11 ≤ argv.length) :
    ∃ params a4 a5 a6, scanArguments sc stack argv = some params ∧
      argv[4]? = some a4 ∧ argv[5]? = some a5 ∧ argv[6]? = some a6 ∧
      params.unwrapWidth = sscanf_d sc a4 800 ∧
      params.radiusMin = sscanf_f sc a5 (1 / 4) ∧
      params.radiusMax = sscanf_f sc a6 (5033165 / 8388608) ∧
      main sc stack argv true first iterations = some
        ⟨[.unwrapWidth params.unwrapWidth, .originalCentre params.uCentre params.vCentre,
          .imageRadius params.radiusMin params.radiusMax, .offsetAngle params.offsetAngle,
          .originalSize first.cols first.rows, .generateTransformation]
          ++ (captureLoop iterations).calls, (captureLoop iterations).exit⟩ := by
  obtain ⟨params, hp⟩ := scanArguments_some sc stack argv hargc
  obtain ⟨a4, a5, a6, h4, h5, h6, hw, hmin, hmax⟩ := scanArguments_fields hp
  refine ⟨params, a4, a5, a6, hp, h4, h5, h6, hw, hmin, hmax, ?_⟩
  rw [main_eq sc stack argv true first iterations hp]
  simp

/-- Claim C2. In the trace of calls that `main` makes on the unwrapper, with ten
positional arguments and for every number of loop iterations:
`generateTransformation` comes after the five configuration setters and before
the first `unwrap`, every call after it is an `unwrap`, and so no `unwrap` lacks
a preceding `generateTransformation` and no setter separates them. When the
capture device does not open, only setters are called. -/
theorem main_call_order (sc : Scanf) (stack : BubbleScopeParameters) (argv : List String)
    (opened : Bool) (first : Mat) (iterations : List (Mat × Int))
    (hargc : 11 ≤ argv.length) :
    ∃ run, main sc stack argv opened first iterations = some run ∧
      (opened = false → ∀ c ∈ run.calls, c.isSetter = true) ∧
      (opened = true → ∃ (width : Int) (u v rmin rmax angle : ℚ) (frames : List Mat),
        run.calls = [.unwrapWidth width, .originalCentre u v, .imageRadius rmin rmax,
          .offsetAngle angle, .originalSize first.cols first.rows, .generateTransformation]
          ++ frames.map UnwrapperCall.unwrap ∧
        frames.length ≤ iterations.length ∧
        ((∀ it ∈ iterations, it.2 ≠ 27) → frames = iterations.map Prod.fst)) := by
  obtain ⟨params, hp⟩ := scanArguments_some sc stack argv hargc
  rw [main_eq sc stack argv opened first iterations hp]
  refine ⟨_, rfl, ?_, ?_⟩
  · intro ho
    subst ho
    intro c hc
    simp only [if_true, List.mem_cons, List.mem_singleton, List.not_mem_nil, or_false] at hc
    rcases hc with rfl | rfl | rfl | rfl <;> rfl
  · intro ho
    subst ho
    obtain ⟨frames, hc, hl, hall⟩ := captureLoop_calls iterations
    refine ⟨params.unwrapWidth, params.uCentre, params.vCentre, params.radiusMin,
      params.radiusMax, params.offsetAngle, frames, ?_, hl, hall⟩
    simp [hc]

/-- Claim C1, amended. `main` validates nothing: when it is given ten positional
arguments and the capture device opens, the calls before
`generateTransformation` pass the unwrap width and the radii scanned from
`argv[4]`, `argv[5]` and `argv[6]` (the defaults 800, 0.25 and 0.6f where the
conversion assigns nothing) and the columns and rows of the first frame. They
have all dimensions positive and `radiusMin < radiusMax` exactly when those
scanned values and the dimensions of the frame do. -/
theorem main_passes_scanned_values (sc : Scanf) (stack : BubbleScopeParameters)
    (argv : List String) (first : Mat) (iterations : List (Mat × Int))
    (hargc : 11 ≤ argv.length) :
    ∃ run cfg a4 a5 a6, main sc stack argv true first iterations = some run ∧
      beforeGenerate run.calls = some cfg ∧
      argv[4]? = some a4 ∧ argv[5]? = some a5 ∧ argv[6]? = some a6 ∧
      UnwrapperCall.unwrapWidth (sscanf_d sc a4 800) ∈ cfg ∧
      UnwrapperCall.imageRadius (sscanf_f sc a5 (1 / 4)) (sscanf_f sc a6 (5033165 / 8388608))
        ∈ cfg ∧
      UnwrapperCall.originalSize first.cols first.rows ∈ cfg ∧
      ((∀ c ∈ cfg, c.passesValid = true) ↔
        (0 < sscanf_d sc a4 800 ∧
          sscanf_f sc a5 (1 / 4) < sscanf_f sc a6 (5033165 / 8388608) ∧
          0 < first.cols ∧ 0 < first.rows)) := by
  obtain ⟨params, a4, a5, a6, -, h4, h5, h6, hw, hmin, hmax, hmain⟩ :=
    main_opened sc stack argv first iterations hargc
  refine ⟨_, _, a4, a5, a6, hmain, beforeGenerate_setup _ _ _ _ _ _ _ _ _, h4, h5, h6, ?_⟩
  rw [← hw, ← hmin, ← hmax]
  refine ⟨by simp, by simp, by simp, ?_⟩
  simp [UnwrapperCall.passesValid, and_assoc]

/-- Claim C1, counterexample. With `0` as the fourth positional argument and a
640 by 480 first frame, `main` calls `unwrapWidth(0)` and then
`generateTransformation()`: a dimension that is not positive has been passed. -/
theorem main_passes_invalid :
    main decimalScanf ⟨0, 0, 0, 0, 0, 0, 0, 0, 0, 0, 0, .PREVIEW, ""⟩
        ["bubblescope", "0", "640", "480", "0", "0.25", "0.75", "0.5", "0.5", "0", "180"]
        true ⟨640, 480⟩ []
      = some ⟨[.unwrapWidth 0, .originalCentre (1 / 2) (1 / 2), .imageRadius (1 / 4) (3 / 4),
          .offsetAngle 180, .originalSize 640 480, .generateTransformation], none⟩ ∧
    beforeGenerate [.unwrapWidth 0, .originalCentre (1 / 2) (1 / 2),
        .imageRadius (1 / 4) (3 / 4), .offsetAngle 180, .originalSize 640 480,
        .generateTransformation]
      = some [.unwrapWidth 0, .originalCentre (1 / 2) (1 / 2), .imageRadius (1 / 4) (3 / 4),
          .offsetAngle 180, .originalSize 640 480] ∧
    (UnwrapperCall.unwrapWidth 0).passesValid = false := by
  refine ⟨?_, ?_, by decide⟩
  · simp [main, scanArguments, setupDefaultParameters, decimalScanf, sscanf_d, sscanf_f,
      scanDecimalInt, scanDecimalFloat, scanUnsigned, scanUnsignedDecimal, digitsCount,
      digitsValue, isspace, captureLoop]
    norm_num
  · simp [beforeGenerate]

/-- Claim C1, witness of the amended statement, on `exampleArgv`. -/
theorem main_passes_scanned_values_witness :
    11 ≤ exampleArgv.length ∧
    ∃ run cfg a4 a5 a6,
      main decimalScanf exampleStack exampleArgv true ⟨640, 480⟩ [(⟨640, 480⟩, 27)]
        = some run ∧
      beforeGenerate run.calls = some cfg ∧
      exampleArgv[4]? = some a4 ∧ exampleArgv[5]? = some a5 ∧ exampleArgv[6]? = some a6 ∧
      UnwrapperCall.unwrapWidth (sscanf_d decimalScanf a4 800) ∈ cfg ∧
      UnwrapperCall.imageRadius (sscanf_f decimalScanf a5 (1 / 4))
        (sscanf_f decimalScanf a6 (5033165 / 8388608)) ∈ cfg ∧
      UnwrapperCall.originalSize (640 : Int) 480 ∈ cfg ∧
      ((∀ c ∈ cfg, c.passesValid = true) ↔
        (0 < sscanf_d decimalScanf a4 800 ∧
          sscanf_f decimalScanf a5 (1 / 4) < sscanf_f decimalScanf a6 (5033165 / 8388608) ∧
          (0 : Int) < 640 ∧ (0 : Int) < 480)) :=
  ⟨by decide,
    main_passes_scanned_values decimalScanf exampleStack exampleArgv ⟨640, 480⟩
      [(⟨640, 480⟩, 27)] (by decide)⟩

/-- Claim C2, witness, on `exampleArgv` with two loop iterations. -/
theorem main_call_order_witness :
    11 ≤ exampleArgv.length ∧
    ∃ run, main decimalScanf exampleStack exampleArgv true ⟨640, 480⟩
        [(⟨640, 480⟩, -1), (⟨640, 480⟩, 27)] = some run ∧
      (true = false → ∀ c ∈ run.calls, c.isSetter = true) ∧
      (true = true → ∃ (width : Int) (u v rmin rmax angle : ℚ) (frames : List Mat),
        run.calls = [.unwrapWidth width, .originalCentre u v, .imageRadius rmin rmax,
          .offsetAngle angle, .originalSize (640 : Int) 480, .generateTransformation]
          ++ frames.map UnwrapperCall.unwrap ∧
        frames.length ≤ [((⟨640, 480⟩ : Mat), (-1 : Int)), (⟨640, 480⟩, 27)].length ∧
        ((∀ it ∈ [((⟨640, 480⟩ : Mat), (-1 : Int)), (⟨640, 480⟩, 27)], it.2 ≠ 27) →
          frames = [((⟨640, 480⟩ : Mat), (-1 : Int)), (⟨640, 480⟩, 27)].map Prod.fst)) :=
  ⟨by decide,
    main_call_order decimalScanf exampleStack exampleArgv true ⟨640, 480⟩
      [(⟨640, 480⟩, -1), (⟨640, 480⟩, 27)] (by decide)⟩


/-- Claim C7. The default configuration is a valid calibration: after
`setupDefaultParameters` the original width and height and the unwrap width are
positive, `0 ≤ radiusMin < radiusMax` with both radii in `[0, 0.71]`, both centre
coordinates lie in `[0, 1]`, and the offset angle lies in `(-360, 360]`. -/
theorem setupDefaultParameters_valid (stack : BubbleScopeParameters) :
    0 < (setupDefaultParameters stack).originalWidth ∧
    0 < (setupDefaultParameters stack).originalHeight ∧
    0 < (setupDefaultParameters stack).unwrapWidth ∧
    0 ≤ (setupDefaultParameters stack).radiusMin ∧
    (setupDefaultParameters stack).radiusMin < (setupDefaultParameters stack).radiusMax ∧
    (setupDefaultParameters stack).radiusMin ≤ 71 / 100 ∧
    0 ≤ (setupDefaultParameters stack).radiusMax ∧
    (setupDefaultParameters stack).radiusMax ≤ 71 / 100 ∧
    0 ≤ (setupDefaultParameters stack).uCentre ∧
    (setupDefaultParameters stack).uCentre ≤ 1 ∧
    0 ≤ (setupDefaultParameters stack).vCentre ∧
    (setupDefaultParameters stack).vCentre ≤ 1 ∧
    -360 < (setupDefaultParameters stack).offsetAngle ∧
    (setupDefaultParameters stack).offsetAngle ≤ 360 := by
  simp only [setupDefaultParameters]
  norm_num

end Driver

/-! ## Properties of the transformation -/

namespace Unwrap

theorem radiusFraction_zero {K : Type} [Field K] (m : CalibrationModel) :
    radiusFraction m 0 = (m.radiusMin : K) := by
  simp [radiusFraction]

/-- Claim C3. For the default configuration of `setupDefaultParameters` with an
unwrap height of 100, the table entry at destination pixel `(0, 0)` given by the
formulas of section 4.2, over the real numbers, is within 0.5 of
`(240, 240)`. -/
theorem default_table_origin (stack : Driver.BubbleScopeParameters) :
    |srcX Real.pi Real.cos (calibrationOf (Driver.setupDefaultParameters stack) 100) 0 0
        - 240| ≤ 1 / 2 ∧
    |srcY Real.pi Real.sin (calibrationOf (Driver.setupDefaultParameters stack) 100) 0 0
        - 240| ≤ 1 / 2 := by
  have ht : theta Real.pi (calibrationOf (Driver.setupDefaultParameters stack) 100) 0
      = Real.pi := by
    simp only [theta, toRadians, calibrationOf, Driver.setupDefaultParameters]
    push_cast
    ring
  have hx : srcX Real.pi Real.cos (calibrationOf (Driver.setupDefaultParameters stack) 100) 0 0
      = 240 := by
    rw [srcX, ht, radiusFraction_zero, Real.cos_pi]
    simp only [calibrationOf, Driver.setupDefaultParameters]
    push_cast
    norm_num
  have hy : srcY Real.pi Real.sin (calibrationOf (Driver.setupDefaultParameters stack) 100) 0 0
      = 240 := by
    rw [srcY, ht, radiusFraction_zero, Real.sin_pi]
    simp only [calibrationOf, Driver.setupDefaultParameters]
    push_cast
    norm_num
  rw [hx, hy]
  norm_num

/-- Claim C5, amended. For a model with `radiusMin < radiusMax` and a positive
unwrap height, the radius fraction of section 4.2 is non-decreasing in `y` over
`0 ≤ y < unwrapHeight` and equals `radiusMin` at `y = 0`; at
`y = unwrapHeight - 1` it equals
`radiusMax - (radiusMax - radiusMin) / unwrapHeight`, which is below
`radiusMax`. -/
theorem radiusFraction_monotone {K : Type} [LinearOrderedField K] (m : CalibrationModel)
    (hr : m.radiusMin < m.radiusMax) (hh : 0 < m.unwrapHeight) :
    (∀ y y' : Int, 0 ≤ y → y ≤ y' → y' < m.unwrapHeight →
      (radiusFraction m y : K) ≤ radiusFraction m y') ∧
    radiusFraction m 0 = (m.radiusMin : K) ∧
    radiusFraction m (m.unwrapHeight - 1)
      = (m.radiusMax : K) - ((m.radiusMax : K) - (m.radiusMin : K)) / (m.unwrapHeight : K) ∧
    (radiusFraction m (m.unwrapHeight - 1) : K) < (m.radiusMax : K) := by
  have hr' : (0 : K) < (m.radiusMax : K) - (m.radiusMin : K) := by
    have : (m.radiusMin : K) < (m.radiusMax : K) := by exact_mod_cast hr
    linarith
  have hh' : (0 : K) < (m.unwrapHeight : K) := by exact_mod_cast hh
  have hlast : radiusFraction m (m.unwrapHeight - 1)
      = (m.radiusMax : K) - ((m.radiusMax : K) - (m.radiusMin : K)) / (m.unwrapHeight : K) := by
    simp only [radiusFraction]
    push_cast
    field_simp
    ring
  refine ⟨?_, radiusFraction_zero m, hlast, ?_⟩
  · intro y y' _ hyy _
    simp only [radiusFraction]
    have hc : (y : K) ≤ (y' : K) := by exact_mod_cast hyy
    have hd : (y : K) / (m.unwrapHeight : K) ≤ (y' : K) / (m.unwrapHeight : K) :=
      div_le_div_of_nonneg_right hc hh'.le
    have := mul_le_mul_of_nonneg_left hd hr'.le
    linarith
  · rw [hlast]
    have : 0 < ((m.radiusMax : K) - (m.radiusMin : K)) / (m.unwrapHeight : K) :=
      div_pos hr' hh'
    linarith

/-- Claim C5, counterexample. With `radiusMin = 0.25`, `radiusMax = 0.6` and an
unwrap height of 100, a valid model, the radius fraction at `y = 99` is 0.5965
and not `radiusMax`. -/
theorem radiusFraction_last_ne_radiusMax :
    (⟨640, 480, 1 / 2, 1 / 2, 1 / 4, 3 / 5, 180, 800, 100⟩ : CalibrationModel).radiusMin
      < (⟨640, 480, 1 / 2, 1 / 2, 1 / 4, 3 / 5, 180, 800, 100⟩ : CalibrationModel).radiusMax ∧
    (radiusFraction ⟨640, 480, 1 / 2, 1 / 2, 1 / 4, 3 / 5, 180, 800, 100⟩ (100 - 1) : ℚ)
      = 1193 / 2000 ∧
    (radiusFraction ⟨640, 480, 1 / 2, 1 / 2, 1 / 4, 3 / 5, 180, 800, 100⟩ (100 - 1) : ℚ)
      ≠ (⟨640, 480, 1 / 2, 1 / 2, 1 / 4, 3 / 5, 180, 800, 100⟩ : CalibrationModel).radiusMax := by
  simp only [radiusFraction]
  norm_num

/-- Claim C5, witness of the amended statement, on `exampleCalibration`. -/
theorem radiusFraction_monotone_witness :
    exampleCalibration.radiusMin < exampleCalibration.radiusMax ∧
    0 < exampleCalibration.unwrapHeight ∧
    (radiusFraction exampleCalibration 10 : ℚ) ≤ radiusFraction exampleCalibration 20 ∧
    (radiusFraction exampleCalibration 0 : ℚ) = exampleCalibration.radiusMin ∧
    (radiusFraction exampleCalibration (exampleCalibration.unwrapHeight - 1) : ℚ)
      < exampleCalibration.radiusMax :=
  ⟨by norm_num [exampleCalibration], by decide,
    (radiusFraction_monotone exampleCalibration (by norm_num [exampleCalibration])
      (by decide)).1 10 20 (by decide) (by decide) (by decide),
    (radiusFraction_monotone exampleCalibration (by norm_num [exampleCalibration])
      (by decide)).2.1,
    (radiusFraction_monotone exampleCalibration (by norm_num [exampleCalibration])
      (by decide)).2.2.2⟩

end Unwrap

end BubbleScope
